import Mathlib

/-!
# Verification of the cellrank kernel/estimator core

A shallow embedding, in Lean 4, of the parts of the cellrank repository that
the frozen claims are about:

* the 12-node absorbing Markov-chain fixture and its fate-probability
  reference matrix (`tests/test_cflare.py`,
  `test_compare_fate_probabilities_with_reference`);
* the post-solve validation of the fate-probability matrix;
* `PseudotimeKernel` (`cellrank/tl/kernels/_pseudotime_kernel.py`):
  `_read_from_adata`, `compute_transition_matrix` caching, `copy`,
  `__invert__`;
* terminal-state renaming and manual terminal-state assignment.

Machine floats are modelled as exact rationals (`ℚ`); NaN is modelled
explicitly where the code checks for it.  Python object/buffer identity is
modelled with an explicit heap of numbered buffers, so that the aliasing
created by `copy.copy` is visible.

Concrete matrices whose decimal entries come from the test fixture are
stored as integer matrices together with a fixed power-of-ten scale
(`0.8 = 80 / 100`, `0.60571429 = 60571429 / 10^8`); this is an exact
representation of the source decimals that lets the kernel certify the
linear algebra by integer computation.
-/

namespace CellRank

/-! ## The 12-node absorbing-chain fixture (claim C1)

`test_compare_fate_probabilities_with_reference` builds a `CFLARE` estimator
on a fixed 12×12 transition matrix whose only absorbing states are 7 and 10,
and compares the computed fate probabilities of the ten transient states
against a precomputed 10×2 reference matrix.  The fate-probability solver
itself (`cellrank.estimators.mixins._fate_probabilities`) is not under
`src/`; modelled from the spec (§4.5) it solves `(I - Q) X = R`, where `Q`
is the transient-transient block and `R` the transient-absorbing block of
the transition matrix. -/

/-- The fixture's transition matrix scaled by 100: entry `(i, j)` is
`100 * transition_matrix[i][j]` of `tests/test_cflare.py` lines 382–398
(so row 0 is `0, 0.8, 0.2, 0, …`, row 7 is the absorbing state `7` with
`transition_matrix[7][7] = 1`, and so on). -/
def Tnum : Matrix (Fin 12) (Fin 12) ℤ :=
  !![0, 80, 20, 0, 0, 0, 0, 0, 0, 0, 0, 0;
     20, 0, 60, 20, 0, 0, 0, 0, 0, 0, 0, 0;
     60, 20, 0, 20, 0, 0, 0, 0, 0, 0, 0, 0;
     0, 5, 5, 0, 45, 45, 0, 0, 0, 0, 0, 0;
     0, 0, 0, 25, 0, 25, 40, 0, 0, 10, 0, 0;
     0, 0, 0, 25, 25, 0, 10, 0, 0, 40, 0, 0;
     0, 0, 0, 0, 5, 5, 0, 70, 20, 0, 0, 0;
     0, 0, 0, 0, 0, 0, 0, 100, 0, 0, 0, 0;
     0, 0, 0, 0, 0, 0, 80, 20, 0, 0, 0, 0;
     0, 0, 0, 0, 5, 5, 0, 0, 0, 0, 70, 20;
     0, 0, 0, 0, 0, 0, 0, 0, 0, 0, 100, 0;
     0, 0, 0, 0, 0, 0, 0, 0, 0, 80, 20, 0]

/-- The fixture's transition matrix over `ℚ`: the decimal matrix of the test,
recovered exactly as `fixtureT i j = Tnum i j / 100`. -/
def fixtureT : Matrix (Fin 12) (Fin 12) ℚ :=
  (100 : ℚ)⁻¹ • Tnum.map fun z => (z : ℚ)

/-- The ten transient states of the fixture in cell order: every state other
than the absorbing states 7 and 10. -/
def transIdx : Fin 10 → Fin 12 := ![0, 1, 2, 3, 4, 5, 6, 8, 9, 11]

/-- The two absorbing states of the fixture, in cell order. -/
def absIdx : Fin 2 → Fin 12 := ![7, 10]

/-- The matrix `I - Q`: identity minus the transient-transient block of the
fixture's transition matrix. -/
def fixtureImQ : Matrix (Fin 10) (Fin 10) ℚ :=
  Matrix.of fun i j => (if i = j then 1 else 0) - fixtureT (transIdx i) (transIdx j)

/-- The matrix `R`: the transient-absorbing block of the fixture's
transition matrix. -/
def fixtureR : Matrix (Fin 10) (Fin 2) ℚ :=
  Matrix.of fun i j => fixtureT (transIdx i) (absIdx j)

/-- Modelled from the spec: the fate-probability solver of
`cellrank.estimators.mixins._fate_probabilities` (not under `src/`) solves,
per §4.5, the absorbing-chain linear system `(I - Q) X = R` for the
transient-cell absorption probabilities `X`. -/
def solvesFateSystem (X : Matrix (Fin 10) (Fin 2) ℚ) : Prop :=
  fixtureImQ * X = fixtureR

/-- The matrix `100 * (I - Q)` as an integer matrix. -/
def ImQnum : Matrix (Fin 10) (Fin 10) ℤ :=
  Matrix.of fun i j => (if i = j then 100 else 0) - Tnum (transIdx i) (transIdx j)

/-- The matrix `100 * R` as an integer matrix. -/
def Rnum : Matrix (Fin 10) (Fin 2) ℤ :=
  Matrix.of fun i j => Tnum (transIdx i) (absIdx j)

/-- The exact inverse of `I - Q` (the fundamental matrix of the absorbing
chain) scaled by `1771560`, the least common multiple of the denominators of
its exact rational entries; certified below by `Nnum_mul_ImQnum`. -/
def Nnum : Matrix (Fin 10) (Fin 10) ℤ :=
  !![5737200, 5686800, 4713800, 3085600, 2010960, 2010960, 1197000, 239400, 1197000, 239400;
     3872400, 5919900, 4480700, 3085600, 2010960, 2010960, 1197000, 239400, 1197000, 239400;
     4338600, 4754400, 5646200, 3085600, 2010960, 2010960, 1197000, 239400, 1197000, 239400;
     609000, 791700, 751100, 3085600, 2010960, 2010960, 1197000, 239400, 1197000, 239400;
     220500, 286650, 271950, 1117200, 2719584, 1302336, 1450080, 290016, 943920, 188784;
     220500, 286650, 271950, 1117200, 1302336, 2719584, 943920, 188784, 1450080, 290016;
     26250, 34125, 32375, 133000, 239400, 239400, 2251500, 450300, 142500, 28500;
     21000, 27300, 25900, 106400, 191520, 191520, 1801200, 2131800, 114000, 22800;
     26250, 34125, 32375, 133000, 239400, 239400, 142500, 28500, 2251500, 450300;
     21000, 27300, 25900, 106400, 191520, 191520, 114000, 22800, 1801200, 2131800]

/-- The inverse `(I - Q)⁻¹` over `ℚ`: `fixtureN i j = Nnum i j / 1771560`. -/
def fixtureN : Matrix (Fin 10) (Fin 10) ℚ :=
  (1771560 : ℚ)⁻¹ • Nnum.map fun z => (z : ℚ)

/-- The precomputed fate-probability reference matrix of the test
(`tests/test_cflare.py` lines 400–413) scaled by `10^8`: row 4 is
`0.60571429, 0.39428571`, row 6 is `0.94047619, 0.05952381`, etc. -/
def refNum : Matrix (Fin 10) (Fin 2) ℤ :=
  !![50000000, 50000000;
     50000000, 50000000;
     50000000, 50000000;
     50000000, 50000000;
     60571429, 39428571;
     39428571, 60571429;
     94047619, 5952381;
     95238095, 4761905;
     5952381, 94047619;
     4761905, 95238095]

/-- The 10×2 fate-probability reference matrix over `ℚ`, one row per
transient state in cell order: `fateProbsRef i j = refNum i j / 10^8`
recovers the decimals of the test exactly. -/
def fateProbsRef : Matrix (Fin 10) (Fin 2) ℚ :=
  (100000000 : ℚ)⁻¹ • refNum.map fun z => (z : ℚ)

/-- Casting an integer matrix product to `ℚ` entrywise commutes with the
product. -/
theorem map_int_mul {l m n : ℕ} (A : Matrix (Fin l) (Fin m) ℤ) (B : Matrix (Fin m) (Fin n) ℤ) :
    (A * B).map (fun z => (z : ℚ)) = (A.map fun z => (z : ℚ)) * (B.map fun z => (z : ℚ)) := by
  ext i j
  simp only [Matrix.map_apply, Matrix.mul_apply]
  push_cast
  rfl

theorem fixtureImQ_scaled : fixtureImQ = (100 : ℚ)⁻¹ • ImQnum.map fun z => (z : ℚ) := by
  ext i j
  simp only [fixtureImQ, ImQnum, fixtureT, Matrix.of_apply, Matrix.smul_apply,
    Matrix.map_apply, smul_eq_mul]
  push_cast
  by_cases h : i = j
  · simp [h]
    try ring
  · simp [h]
    try ring

theorem fixtureR_scaled : fixtureR = (100 : ℚ)⁻¹ • Rnum.map fun z => (z : ℚ) := by
  ext i j
  simp [fixtureR, Rnum, fixtureT]

set_option maxRecDepth 8000 in
theorem Nnum_mul_ImQnum :
    ∀ i j, (Nnum * ImQnum) i j = if i = j then 177156000 else 0 := by decide

set_option maxRecDepth 8000 in
theorem ImQnum_mul_Nnum :
    ∀ i j, (ImQnum * Nnum) i j = if i = j then 177156000 else 0 := by decide

/-- An integer matrix that is entrywise a multiple of the identity casts to
the corresponding `ℚ`-multiple of the identity. -/
theorem map_of_diagonal {n : ℕ} (M : Matrix (Fin n) (Fin n) ℤ) (z : ℤ)
    (h : ∀ i j, M i j = if i = j then z else 0) :
    M.map (fun w => (w : ℚ)) = (z : ℚ) • 1 := by
  ext i j
  simp [Matrix.map_apply, h i j, Matrix.one_apply, apply_ite (fun w : ℤ => (w : ℚ))]

theorem fixtureN_mul_ImQ : fixtureN * fixtureImQ = 1 := by
  rw [fixtureImQ_scaled, fixtureN, Matrix.smul_mul, Matrix.mul_smul, smul_smul,
    ← map_int_mul, map_of_diagonal _ _ Nnum_mul_ImQnum, smul_smul]
  norm_num

theorem fixtureImQ_mul_N : fixtureImQ * fixtureN = 1 := by
  rw [fixtureImQ_scaled, fixtureN, Matrix.smul_mul, Matrix.mul_smul, smul_smul,
    ← map_int_mul, map_of_diagonal _ _ ImQnum_mul_Nnum, smul_smul]
  norm_num

theorem fixtureN_mul_R :
    fixtureN * fixtureR = (177156000 : ℚ)⁻¹ • (Nnum * Rnum).map fun z => (z : ℚ) := by
  rw [fixtureR_scaled, fixtureN, Matrix.smul_mul, Matrix.mul_smul, smul_smul, ← map_int_mul]
  norm_num

/-- Clearing denominators in an absolute-difference bound between two scaled
integers. -/
theorem int_div_bound (a r : ℤ)
    (h : |a * 100000000 - r * 177156000| * 1000000 ≤ 17715600000000000) :
    |(a : ℚ) / 177156000 - (r : ℚ) / 100000000| ≤ 1 / 1000000 := by
  rw [div_sub_div _ _ (by norm_num) (by norm_num), abs_div]
  rw [abs_of_pos (by norm_num : (0 : ℚ) < 177156000 * 100000000)]
  rw [div_le_div_iff₀ (by norm_num) (by norm_num)]
  have h' : (|a * 100000000 - r * 177156000| * 1000000 : ℚ) ≤ 17715600000000000 := by
    exact_mod_cast h
  push_cast at h'
  calc |(a : ℚ) * 100000000 - 177156000 * r| * 1000000
      = |(a : ℚ) * 100000000 - r * 177156000| * 1000000 := by ring_nf
    _ ≤ 17715600000000000 := h'
    _ ≤ 1 * (177156000 * 100000000) := by norm_num

set_option maxRecDepth 8000 in
theorem NR_close_to_ref :
    ∀ i j, |(Nnum * Rnum) i j * 100000000 - refNum i j * 177156000| * 1000000 ≤
      17715600000000000 := by decide

/-- C1: for the 12-node absorbing-chain fixture (absorbing states 7 and
10, the other ten states transient), any fate-probability matrix `X` solving
the absorbing-chain linear system `(I - Q) X = R` — the system the
fate-probability solver of a CFLARE estimator solves, per the spec — agrees
with the precomputed 10×2 reference matrix entrywise within absolute
tolerance `1e-6`, on every transient cell. -/
theorem c1_fate_probabilities_match_reference (X : Matrix (Fin 10) (Fin 2) ℚ)
    (hX : solvesFateSystem X) :
    ∀ i j, |X i j - fateProbsRef i j| ≤ 1 / 1000000 := by
  rw [solvesFateSystem] at hX
  have hXeq : X = fixtureN * fixtureR := by
    calc X = (1 : Matrix (Fin 10) (Fin 10) ℚ) * X := (Matrix.one_mul X).symm
    _ = fixtureN * fixtureImQ * X := by rw [fixtureN_mul_ImQ]
    _ = fixtureN * (fixtureImQ * X) := Matrix.mul_assoc _ _ _
    _ = fixtureN * fixtureR := by rw [hX]
  intro i j
  rw [hXeq, fixtureN_mul_R]
  have hentry : ((177156000 : ℚ)⁻¹ • (Nnum * Rnum).map fun z => (z : ℚ)) i j
      = ((Nnum * Rnum) i j : ℚ) / 177156000 := by
    simp [Matrix.smul_apply, Matrix.map_apply, inv_mul_eq_div]
  have href : fateProbsRef i j = (refNum i j : ℚ) / 100000000 := by
    simp [fateProbsRef, Matrix.smul_apply, Matrix.map_apply, inv_mul_eq_div]
  rw [hentry, href]
  exact int_div_bound _ _ (NR_close_to_ref i j)

/-- Witness for C1: the matrix `fixtureN * fixtureR` solves the linear
system, so the hypothesis is satisfiable, and (by the theorem) its entry for
transient cell 4 and absorbing state 7 matches the reference entry
`0.60571429`. -/
theorem c1_fate_probabilities_match_reference_witness :
    solvesFateSystem (fixtureN * fixtureR) ∧
    |(fixtureN * fixtureR) 4 0 - fateProbsRef 4 0| ≤ 1 / 1000000 :=
  ⟨by rw [solvesFateSystem, ← Matrix.mul_assoc, fixtureImQ_mul_N, Matrix.one_mul],
   c1_fate_probabilities_match_reference (fixtureN * fixtureR)
    (by rw [solvesFateSystem, ← Matrix.mul_assoc, fixtureImQ_mul_N, Matrix.one_mul]) 4 0⟩

/-! ## `PseudotimeKernel._read_from_adata` (claim C4)

From `cellrank/tl/kernels/_pseudotime_kernel.py`, lines 64–75: the
constructor reads the pseudotime column `adata.obs[time_key]`, raising a
`KeyError` naming the key when the column is absent; negates the pseudotime
around its maximum when `backward`; and raises a `ValueError` when the
stored array contains NaN.  All of this happens in `__init__`, before
`compute_transition_matrix` can run, so on failure no kernel (and hence no
transition matrix) exists.

A numpy float is modelled as `PyFloat`: either a rational value or NaN, with
the numpy propagation rules for `-` and `max` (any NaN makes `np.max`
NaN). -/

/-- A numpy float64 value: a real number (modelled exactly as `ℚ`) or NaN. -/
inductive PyFloat where
  | val (q : ℚ)
  | nan
  deriving DecidableEq

/-- Whether a `PyFloat` is NaN (`np.isnan`). -/
def PyFloat.isNaN : PyFloat → Bool
  | .nan => true
  | .val _ => false

/-- numpy subtraction: NaN propagates. -/
def pySub : PyFloat → PyFloat → PyFloat
  | .val a, .val b => .val (a - b)
  | _, _ => .nan

/-- numpy binary maximum: NaN propagates (as in `np.max` reduction). -/
def pyMax2 : PyFloat → PyFloat → PyFloat
  | .val a, .val b => .val (max a b)
  | _, _ => .nan

/-- Applies `np.max` to an array.  `np.max` of an empty array raises; the
`[]` case returns NaN as a junk value and is never reached on the arrays the
kernel reads. -/
def npMax : List PyFloat → PyFloat
  | [] => .nan
  | [x] => x
  | x :: y :: t => pyMax2 x (npMax (y :: t))

/-- The two error kinds `_read_from_adata` can raise. -/
inductive ReadError where
  | keyError (msg : String)
  | valueError (msg : String)
  deriving DecidableEq

/-- The `KeyError` message; the Python original is
`f"Could not find time key in adata.obs[{time_key!r}]."` (with the repr
quotes around the key omitted here). -/
def missingTimeKeyMsg (timeKey : String) : String :=
  "Could not find time key in adata.obs[" ++ timeKey ++ "]."

/-- Embeds `PseudotimeKernel._read_from_adata` (lines 64–75): look up the
pseudotime column, negate it around its maximum when `backward`, and reject
NaN.  `obs` models `adata.obs` as an association list from column names to
arrays. -/
def readFromAdata (obs : List (String × List PyFloat)) (timeKey : String)
    (backward : Bool) : Except ReadError (List PyFloat) :=
  match obs.lookup timeKey with
  | none => .error (.keyError (missingTimeKeyMsg timeKey))
  | some pt =>
    let pt := if backward then pt.map (fun x => pySub (npMax pt) x) else pt
    if pt.any PyFloat.isNaN then
      .error (.valueError "Encountered NaN values in pseudotime.")
    else
      .ok pt

theorem npMax_of_any_nan (pt : List PyFloat) (h : pt.any PyFloat.isNaN = true) :
    npMax pt = .nan := by
  induction pt with
  | nil => simp at h
  | cons x t ih =>
    cases t with
    | nil =>
      cases x with
      | val q => simp [PyFloat.isNaN] at h
      | nan => rfl
    | cons y s =>
      rw [npMax]
      cases x with
      | nan => rfl
      | val q =>
        simp only [List.any_cons, PyFloat.isNaN, Bool.false_or] at h
        rw [ih (by simpa using h)]
        rfl

theorem backward_map_preserves_nan (pt : List PyFloat)
    (h : pt.any PyFloat.isNaN = true) :
    (pt.map fun x => pySub (npMax pt) x).any PyFloat.isNaN = true := by
  cases pt with
  | nil => simp at h
  | cons x t =>
    rw [npMax_of_any_nan _ h]
    simp [pySub, PyFloat.isNaN]

/-- C4: constructing a `PseudotimeKernel` fails before any
transition-matrix computation when (a) the configured pseudotime key is
absent from `adata.obs` — a `KeyError` whose message names the missing key —
or (b) the pseudotime array contains a NaN value — a `ValueError`.  In both
cases `_read_from_adata` returns an error, so no transition matrix is
produced. -/
theorem c4_read_from_adata_errors (obs : List (String × List PyFloat))
    (timeKey : String) (backward : Bool) :
    (obs.lookup timeKey = none →
      readFromAdata obs timeKey backward =
        .error (.keyError (missingTimeKeyMsg timeKey)) ∧
      ∃ pre post, missingTimeKeyMsg timeKey = pre ++ timeKey ++ post) ∧
    (∀ pt, obs.lookup timeKey = some pt → pt.any PyFloat.isNaN = true →
      readFromAdata obs timeKey backward =
        .error (.valueError "Encountered NaN values in pseudotime.")) := by
  constructor
  · intro hnone
    refine ⟨?_, "Could not find time key in adata.obs[", "].", rfl⟩
    simp [readFromAdata, hnone]
  · intro pt hsome hnan
    rw [readFromAdata, hsome]
    cases backward with
    | false => simp [hnan]
    | true => simp [backward_map_preserves_nan pt hnan]

/-- Witness for C4: a concrete `adata.obs` with one pseudotime column.  The
key `"foo"` is absent and yields the `KeyError`; the stored column contains
a NaN and yields the `ValueError` (here with `backward = true`, the harder
case, where the NaN check runs after negation around the maximum). -/
theorem c4_read_from_adata_errors_witness :
    readFromAdata [("dpt_pseudotime", [.val 1, .nan])] "foo" false =
      .error (.keyError (missingTimeKeyMsg "foo")) ∧
    readFromAdata [("dpt_pseudotime", [.val 1, .nan])] "dpt_pseudotime" true =
      .error (.valueError "Encountered NaN values in pseudotime.") := by
  constructor
  · exact ((c4_read_from_adata_errors [("dpt_pseudotime", [.val 1, .nan])] "foo"
      false).1 (by rfl)).1
  · exact (c4_read_from_adata_errors [("dpt_pseudotime", [.val 1, .nan])]
      "dpt_pseudotime" true).2 [.val 1, .nan] (by rfl) (by rfl)

/-! ## The kernel object model (claims C5, C6, C7, C9)

`PseudotimeKernel` holds a numpy pseudotime array and (optionally) a scipy
sparse transition matrix.  To make Python aliasing visible, arrays live in
an explicit heap of numbered buffers; a kernel object stores buffer ids.
Python identities (object ids, buffer ids) are drawn from the heap's
counter, so distinct allocations get distinct ids.

Relevant Python semantics modelled here:
* `copy.copy` on a numpy array calls `ndarray.__copy__`, which allocates a
  fresh buffer with the same contents;
* `copy.copy` on a scipy sparse matrix (which defines no `__copy__`) makes a
  new wrapper whose `.data` attribute is the very same buffer object;
* numpy arithmetic such as `np.max(pt) - pt` allocates a fresh result array.

The kernel's stored pseudotime has passed the NaN check of
`_read_from_adata`, so buffers hold plain rationals. -/

/-- The heap: an allocation counter and the contents of every buffer. -/
structure Heap where
  next : ℕ
  store : ℕ → List ℚ

/-- Allocate a fresh python object id. -/
def allocId (h : Heap) : Heap × ℕ :=
  ({ h with next := h.next + 1 }, h.next)

/-- Allocate a fresh buffer holding `v`. -/
def allocBuf (h : Heap) (v : List ℚ) : Heap × ℕ :=
  ({ next := h.next + 1, store := fun b => if b = h.next then v else h.store b }, h.next)

/-- Overwrite the contents of buffer `b` in place (an in-place numpy
mutation such as `arr[...] = v`). -/
def writeBuf (h : Heap) (b : ℕ) (v : List ℚ) : Heap :=
  { h with store := fun x => if x = b then v else h.store x }

/-- A scipy sparse (csr) matrix wrapper: it holds a reference to its
underlying `.data` buffer. -/
structure CsrMatrix where
  dataBuf : ℕ
  deriving DecidableEq

/-- A value of the `_params` cache dict: the kinds occurring in
`compute_transition_matrix`'s cache key (`"dnorm"`, `"scheme"`, and numeric
scheme kwargs). -/
inductive ParamVal where
  | pBool (b : Bool)
  | pStr (s : String)
  | pRat (q : ℚ)
  deriving DecidableEq

/-- The state of a `PseudotimeKernel` object. -/
structure PKernel where
  objId : ℕ
  backward : Bool
  timeKey : String
  conn : List (List ℚ)
  ptBuf : ℕ
  params : List (String × ParamVal)
  condNum : Option ℚ
  tmat : Option CsrMatrix

/-- All ids a kernel refers to have been allocated. -/
def kernelWF (h : Heap) (k : PKernel) : Bool :=
  decide (k.objId < h.next) && decide (k.ptBuf < h.next) &&
    (match k.tmat with
     | none => true
     | some m => decide (m.dataBuf < h.next))

/-- The contents of a kernel's transition matrix, if computed. -/
def tmatData (h : Heap) (k : PKernel) : Option (List ℚ) :=
  k.tmat.map fun m => h.store m.dataBuf

/-- Mutate the data of a kernel's transition matrix in place
(`k._transition_matrix.data[...] = v`). -/
def mutateTmat (h : Heap) (k : PKernel) (v : List ℚ) : Heap :=
  match k.tmat with
  | none => h
  | some m => writeBuf h m.dataBuf v

/-- Embeds `PseudotimeKernel.copy` (lines 192–202):
```
pk = PseudotimeKernel(self.adata, backward=self.backward, time_key=self._time_key)
pk._pseudotime = copy(self.pseudotime)
pk._params = copy(self._params)
pk._cond_num = self.condition_number
pk._transition_matrix = copy(self._transition_matrix)
```
The constructor creates a fresh python object (whose constructor-read
pseudotime buffer is immediately overwritten and therefore not modelled);
`copy(self.pseudotime)` allocates a fresh buffer with the same contents;
`copy(self._transition_matrix)` is a shallow copy of the scipy sparse
wrapper, keeping the same underlying `.data` buffer (`copy(None)` is
`None`). -/
def copyKernel (h : Heap) (k : PKernel) : Heap × PKernel :=
  let (h1, oid) := allocId h
  let (h2, ptb) := allocBuf h1 (h1.store k.ptBuf)
  (h2,
    { objId := oid
      backward := k.backward
      timeKey := k.timeKey
      conn := k.conn
      ptBuf := ptb
      params := k.params
      condNum := k.condNum
      tmat := k.tmat })

/-- The maximum of a pseudotime array (`np.max` on a NaN-free array);
`0` for the empty array, on which `np.max` raises instead. -/
def listMax : List ℚ → ℚ
  | [] => 0
  | [x] => x
  | x :: y :: t => max x (listMax (y :: t))

/-- The minimum of a pseudotime array (`np.min`); `0` for the empty array. -/
def listMin : List ℚ → ℚ
  | [] => 0
  | [x] => x
  | x :: y :: t => min x (listMin (y :: t))

/-- The pseudotime transform of `__invert__` (line 206):
`np.max(self.pseudotime) - self.pseudotime`. -/
def invertPt (pt : List ℚ) : List ℚ :=
  pt.map fun x => listMax pt - x

/-- Embeds `PseudotimeKernel.__invert__` (lines 204–207): `super().__invert__()`
toggles the `backward` flag in place and returns `self` (modelled from the
spec: the base class is not under `src/`); then
`self._pseudotime = np.max(self.pseudotime) - self.pseudotime` rebinds the
pseudotime attribute of the same object to a freshly allocated result
array. -/
def invertKernel (h : Heap) (k : PKernel) : Heap × PKernel :=
  let (h1, b) := allocBuf h (invertPt (h.store k.ptBuf))
  (h1, { k with backward := !k.backward, ptBuf := b })

/-- A threshold scheme as passed to `compute_transition_matrix`: its string
identity (`str(threshold_scheme)`), its keyword arguments, and its
`bias_knn` function mapping the connectivity graph and the pseudotime to the
biased graph. -/
structure SchemeSpec where
  name : String
  sparams : List (String × ParamVal)
  bias : List (List ℚ) → List ℚ → List (List ℚ)

/-- The cache key of `compute_transition_matrix` (line 161):
`{"dnorm": False, "scheme": str(threshold_scheme), **kwargs}`. -/
def cacheKey (s : SchemeSpec) : List (String × ParamVal) :=
  ("dnorm", ParamVal.pBool false) :: ("scheme", ParamVal.pStr s.name) :: s.sparams

/-- Modelled from the spec: `Kernel._reuse_cache` of the base class, which
is not under `src/`.  Per §4.2 the cache is "keyed by a canonical
serialization of all parameters, including the scheme identity"; the key is
compared against the stored `_params`. -/
def reuseCache (k : PKernel) (key : List (String × ParamVal)) : Bool :=
  decide (k.params = key)

/-- Modelled from the spec: `Kernel._compute_transition_matrix` of the base
class, which is not under `src/`, row-normalises the biased graph into a
transition matrix (§4.2; all-zero rows are kept). -/
def rowNormalize (m : List (List ℚ)) : List (List ℚ) :=
  m.map fun r => if r.sum = 0 then r else r.map fun x => x / r.sum

/-- Embeds `PseudotimeKernel.compute_transition_matrix` (lines 138–185) for an
already-resolved scheme: if `_reuse_cache` hits, return `self` unchanged;
otherwise bias the connectivity graph with the scheme, row-normalise, store
the result in a fresh matrix, and record the cache key in `_params`. -/
def computeTransitionMatrix (h : Heap) (k : PKernel) (s : SchemeSpec) :
    Heap × PKernel :=
  if reuseCache k (cacheKey s) then (h, k)
  else
    let biased := s.bias k.conn (h.store k.ptBuf)
    let tm := rowNormalize biased
    let (h1, b) := allocBuf h tm.flatten
    (h1, { k with params := cacheKey s, tmat := some ⟨b⟩ })

/-! ### Claim C5: `copy()` -/

/-- C5 (amended): `copy()` returns a distinct kernel object that
preserves the backward direction, the time key, the pseudotime values (in a
freshly allocated buffer), the cached parameters and the transition matrix —
but the transition matrix of the copy is the shallow `copy.copy` of a scipy
sparse matrix, so it refers to the very same underlying data buffer as the
original's. -/
theorem c5_copy_shallow_transition_matrix (h : Heap) (k : PKernel) (m : CsrMatrix)
    (hwf : kernelWF h k = true) (hm : k.tmat = some m) :
    ((copyKernel h k).2.objId ≠ k.objId) ∧
    ((copyKernel h k).2.backward = k.backward) ∧
    ((copyKernel h k).2.timeKey = k.timeKey) ∧
    ((copyKernel h k).2.ptBuf ≠ k.ptBuf) ∧
    ((copyKernel h k).1.store (copyKernel h k).2.ptBuf = h.store k.ptBuf) ∧
    ((copyKernel h k).2.params = k.params) ∧
    ((copyKernel h k).2.tmat = some m) ∧
    ((copyKernel h k).1.store m.dataBuf = h.store m.dataBuf) := by
  rw [kernelWF, hm] at hwf
  simp only [Bool.and_eq_true, decide_eq_true_eq] at hwf
  obtain ⟨⟨hobj, hpt⟩, hdata⟩ := hwf
  refine ⟨?_, rfl, rfl, ?_, ?_, rfl, hm, ?_⟩
  · simp only [copyKernel, allocId, allocBuf]
    omega
  · simp only [copyKernel, allocId, allocBuf]
    omega
  · simp [copyKernel, allocId, allocBuf]
  · simp only [copyKernel, allocId, allocBuf]
    have : ¬ m.dataBuf = h.next + 1 := by omega
    simp [this]

/-- A concrete heap and kernel for the C5 theorems: object id 2, pseudotime
in buffer 0, a computed transition matrix whose data is `[1/2, 1/2]` in
buffer 1. -/
def heapC5 : Heap :=
  { next := 3, store := fun b => if b = 0 then [1, 2] else if b = 1 then [1/2, 1/2] else [] }

def kernC5 : PKernel :=
  { objId := 2
    backward := false
    timeKey := "dpt_pseudotime"
    conn := [[0, 1], [1, 0]]
    ptBuf := 0
    params := []
    condNum := none
    tmat := some ⟨1⟩ }

/-- Counterexample to C5 as stated: the copy's transition matrix shares its
data buffer with the original's, so an in-place mutation of the copy's
matrix data changes the original kernel's transition matrix. -/
theorem c5_counterexample :
    ((copyKernel heapC5 kernC5).2.tmat = kernC5.tmat) ∧
    (tmatData heapC5 kernC5 = some [1/2, 1/2]) ∧
    (tmatData (mutateTmat (copyKernel heapC5 kernC5).1 (copyKernel heapC5 kernC5).2 [42, 0])
        kernC5 = some [42, 0]) :=
  ⟨rfl, rfl, rfl⟩

/-- Witness for C5 (amended), at the concrete kernel `kernC5`. -/
theorem c5_copy_shallow_transition_matrix_witness :
    ((copyKernel heapC5 kernC5).2.objId ≠ kernC5.objId) ∧
    ((copyKernel heapC5 kernC5).2.backward = kernC5.backward) ∧
    ((copyKernel heapC5 kernC5).2.timeKey = kernC5.timeKey) ∧
    ((copyKernel heapC5 kernC5).2.ptBuf ≠ kernC5.ptBuf) ∧
    ((copyKernel heapC5 kernC5).1.store (copyKernel heapC5 kernC5).2.ptBuf
      = heapC5.store kernC5.ptBuf) ∧
    ((copyKernel heapC5 kernC5).2.params = kernC5.params) ∧
    ((copyKernel heapC5 kernC5).2.tmat = some ⟨1⟩) ∧
    ((copyKernel heapC5 kernC5).1.store 1 = heapC5.store 1) :=
  c5_copy_shallow_transition_matrix heapC5 kernC5 ⟨1⟩ (by rfl) rfl

/-! ### Claim C6: `__invert__` -/

theorem invertKernel_store (h : Heap) (k : PKernel) :
    (invertKernel h k).1.store (invertKernel h k).2.ptBuf
      = invertPt (h.store k.ptBuf) := by
  simp [invertKernel, allocBuf]

theorem invertPt_getD (pt : List ℚ) (i : ℕ) (hi : i < pt.length) :
    (invertPt pt).getD i 0 = listMax pt - pt.getD i 0 := by
  simp [invertPt, List.getD_eq_getElem?_getD, List.getElem?_eq_getElem hi]

/-- C6: `~kernel` toggles the direction in place and returns the very
same object (same object id — no new kernel is allocated), replacing the
pseudotime by its negation around its maximum
(`new = np.max(old) - old`), so that a cell with strictly higher pseudotime
ends up with strictly lower pseudotime. -/
theorem c6_invert_in_place (h : Heap) (k : PKernel) :
    ((invertKernel h k).2.objId = k.objId) ∧
    ((invertKernel h k).2.backward = !k.backward) ∧
    ((invertKernel h k).1.store (invertKernel h k).2.ptBuf
      = (h.store k.ptBuf).map fun x => listMax (h.store k.ptBuf) - x) ∧
    (∀ i j, i < (h.store k.ptBuf).length → j < (h.store k.ptBuf).length →
      (h.store k.ptBuf).getD i 0 < (h.store k.ptBuf).getD j 0 →
      (invertPt (h.store k.ptBuf)).getD j 0 < (invertPt (h.store k.ptBuf)).getD i 0) := by
  refine ⟨rfl, rfl, invertKernel_store h k, ?_⟩
  intro i j hi hj hlt
  rw [invertPt_getD _ _ hi, invertPt_getD _ _ hj]
  exact sub_lt_sub_left hlt _

def heapC6 : Heap :=
  { next := 2, store := fun b => if b = 0 then [1, 3, 2] else [] }

def kernC6 : PKernel :=
  { objId := 1
    backward := false
    timeKey := "dpt_pseudotime"
    conn := []
    ptBuf := 0
    params := []
    condNum := none
    tmat := none }

/-- Witness for C6 at the concrete pseudotime `[1, 3, 2]`: cell 0 has lower
pseudotime than cell 1, and after inversion the order is reversed. -/
theorem c6_invert_in_place_witness :
    ((invertKernel heapC6 kernC6).2.objId = kernC6.objId) ∧
    ((invertKernel heapC6 kernC6).2.backward = true) ∧
    ((invertKernel heapC6 kernC6).1.store (invertKernel heapC6 kernC6).2.ptBuf
      = ([1, 3, 2] : List ℚ).map fun x => listMax [1, 3, 2] - x) ∧
    ((invertPt [1, 3, 2]).getD 1 0 < (invertPt [1, 3, 2]).getD 0 0) := by
  have H := c6_invert_in_place heapC6 kernC6
  exact ⟨H.1, H.2.1, H.2.2.1, H.2.2.2 0 1 (by decide) (by decide)
    (show (1 : ℚ) < 3 by norm_num)⟩

/-! ### Claim C7: `compute_transition_matrix` caching -/

/-- C7: calling `compute_transition_matrix` a second time with
parameters identical to the previous call — any scheme `s'` with the same
string identity and the same scheme kwargs, i.e. the same cache key — is a
no-op: it returns the same kernel object with the stored transition matrix
(and the heap) unchanged, because `_reuse_cache` hits on the recorded
serialization. -/
theorem c7_recompute_same_params_noop (h : Heap) (k : PKernel) (s s' : SchemeSpec)
    (hkey : cacheKey s' = cacheKey s) :
    computeTransitionMatrix (computeTransitionMatrix h k s).1
      (computeTransitionMatrix h k s).2 s' = computeTransitionMatrix h k s := by
  by_cases hc : k.params = cacheKey s
  · simp [computeTransitionMatrix, reuseCache, hc, hkey]
  · simp [computeTransitionMatrix, reuseCache, hc, hkey]

def heapC7 : Heap :=
  { next := 2, store := fun b => if b = 0 then [1, 2] else [] }

def kernC7 : PKernel :=
  { objId := 1
    backward := false
    timeKey := "dpt_pseudotime"
    conn := [[0, 1], [1, 0]]
    ptBuf := 0
    params := []
    condNum := none
    tmat := none }

/-- The hard scheme of the source, with its default parameters, and an
arbitrary concrete bias function (the no-op claim holds for any bias). -/
def schemeC7 : SchemeSpec :=
  { name := "hard"
    sparams := [("frac_to_keep", ParamVal.pRat (3/10)), ("n_neighs", ParamVal.pRat 5)]
    bias := fun conn _ => conn }

/-- Witness for C7: recomputing with the identical scheme on a concrete
kernel is a no-op. -/
theorem c7_recompute_same_params_noop_witness :
    computeTransitionMatrix (computeTransitionMatrix heapC7 kernC7 schemeC7).1
      (computeTransitionMatrix heapC7 kernC7 schemeC7).2 schemeC7
      = computeTransitionMatrix heapC7 kernC7 schemeC7 :=
  c7_recompute_same_params_noop heapC7 kernC7 schemeC7 schemeC7 rfl

/-! ### Claim C9: double inversion -/

theorem listMax_map_const_sub (c : ℚ) (pt : List ℚ) (h : pt ≠ []) :
    listMax (pt.map fun x => c - x) = c - listMin pt := by
  have key : ∀ a b : ℚ, max (c - a) (c - b) = c - min a b := by
    intro a b
    rcases le_total a b with hab | hab
    · rw [min_eq_left hab, max_eq_left (by linarith)]
    · rw [min_eq_right hab, max_eq_right (by linarith)]
  induction pt with
  | nil => exact absurd rfl h
  | cons x t ih =>
    cases t with
    | nil => rfl
    | cons y s =>
      rw [List.map_cons, List.map_cons, listMax, ← List.map_cons, ih (by simp),
        listMin, key]

theorem listMin_map_sub_const (c : ℚ) (pt : List ℚ) (h : pt ≠ []) :
    listMin (pt.map fun x => x - c) = listMin pt - c := by
  have key : ∀ a b : ℚ, min (a - c) (b - c) = min a b - c := by
    intro a b
    rcases le_total a b with hab | hab
    · rw [min_eq_left hab, min_eq_left (by linarith)]
    · rw [min_eq_right hab, min_eq_right (by linarith)]
  induction pt with
  | nil => exact absurd rfl h
  | cons x t ih =>
    cases t with
    | nil => rfl
    | cons y s =>
      rw [List.map_cons, List.map_cons, listMin]
      have ih' : listMin ((y - c) :: List.map (fun x => x - c) s)
          = listMin (y :: s) - c := ih (by simp)
      rw [ih', show listMin (x :: y :: s) = min x (listMin (y :: s)) from rfl, key]

theorem invertPt_invertPt (pt : List ℚ) (h : pt ≠ []) :
    invertPt (invertPt pt) = pt.map fun x => x - listMin pt := by
  simp only [invertPt]
  rw [listMax_map_const_sub _ _ h, List.map_map]
  have : ((fun x => listMax pt - listMin pt - x) ∘ fun x => listMax pt - x)
      = fun x => x - listMin pt := by
    funext x
    simp only [Function.comp]
    ring
  rw [this]

theorem map_sub_min_eq_self_iff (pt : List ℚ) (h : pt ≠ []) :
    (pt.map fun x => x - listMin pt) = pt ↔ listMin pt = 0 := by
  constructor
  · intro he
    have := congrArg listMin he
    rw [listMin_map_sub_const _ _ h] at this
    linarith
  · intro h0
    rw [h0]
    have : (fun x : ℚ => x - 0) = id := funext fun x => sub_zero x
    rw [this, List.map_id]

/-- C9: applying `__invert__` twice does not in general restore the
original pseudotime: after two inversions the stored pseudotime equals the
original minus its minimum, and it equals the original exactly when the
original minimum is `0`. -/
theorem c9_double_invert (h : Heap) (k : PKernel) (hne : h.store k.ptBuf ≠ []) :
    ((invertKernel (invertKernel h k).1 (invertKernel h k).2).1.store
        (invertKernel (invertKernel h k).1 (invertKernel h k).2).2.ptBuf
      = (h.store k.ptBuf).map fun x => x - listMin (h.store k.ptBuf)) ∧
    (((invertKernel (invertKernel h k).1 (invertKernel h k).2).1.store
        (invertKernel (invertKernel h k).1 (invertKernel h k).2).2.ptBuf
      = h.store k.ptBuf) ↔ listMin (h.store k.ptBuf) = 0) := by
  have h1 := invertKernel_store h k
  have h2 := invertKernel_store (invertKernel h k).1 (invertKernel h k).2
  rw [h2, h1]
  exact ⟨invertPt_invertPt _ hne,
    by rw [invertPt_invertPt _ hne]; exact map_sub_min_eq_self_iff _ hne⟩

def heapC9 : Heap :=
  { next := 2, store := fun b => if b = 0 then [1, 3] else [] }

def kernC9 : PKernel :=
  { objId := 1
    backward := false
    timeKey := "dpt_pseudotime"
    conn := []
    ptBuf := 0
    params := []
    condNum := none
    tmat := none }

/-- Witness for C9 at the concrete pseudotime `[1, 3]` (minimum `1 ≠ 0`):
double inversion yields `[0, 2]`, not the original array. -/
theorem c9_double_invert_witness :
    ((invertKernel (invertKernel heapC9 kernC9).1 (invertKernel heapC9 kernC9).2).1.store
        (invertKernel (invertKernel heapC9 kernC9).1 (invertKernel heapC9 kernC9).2).2.ptBuf
      = ([0, 2] : List ℚ)) ∧
    ¬ ((invertKernel (invertKernel heapC9 kernC9).1 (invertKernel heapC9 kernC9).2).1.store
        (invertKernel (invertKernel heapC9 kernC9).1 (invertKernel heapC9 kernC9).2).2.ptBuf
      = ([1, 3] : List ℚ)) := by
  have H := c9_double_invert heapC9 kernC9 (by simp [heapC9, kernC9])
  have hmin : listMin ([1, 3] : List ℚ) = 1 := by
    rw [listMin, listMin]
    norm_num
  constructor
  · rw [H.1]
    show ([1, 3] : List ℚ).map (fun x => x - listMin ([1, 3] : List ℚ)) = [0, 2]
    rw [hmin]
    norm_num
  · intro hcontra
    have h0 := H.2.mp hcontra
    rw [show heapC9.store kernC9.ptBuf = ([1, 3] : List ℚ) from rfl] at h0
    rw [hmin] at h0
    norm_num at h0

/-! ## Post-solve validation of the fate-probability matrix (claim C3)

The validation lives in `cellrank.estimators.mixins._fate_probabilities`,
which is not under `src/`.  Modelled from the spec (§4.5 and §8): after the
linear solve, every row of the fate-probability matrix must sum to 1 within
relative tolerance `1e-3` and no entry may be negative; a violation raises a
`ValueError` (a hard error, modelled as `Except.error` — never a warning)
whose message states the exact count of violating values, with the wording
of the tests: `` `1` value(s) do not sum to 1 (rtol=1e-3). `` and
`` `2` value(s) are negative. ``.  The negativity check runs first: in
`test_fate_probs_negative` the mocked matrix violates both conditions (its
first row sums to `-2`) and the negativity error is the one raised. -/

/-- The number of negative entries in one row. -/
def negCountRow : List ℚ → ℕ
  | [] => 0
  | x :: r => (if x < 0 then 1 else 0) + negCountRow r

/-- The number of negative entries of the matrix (`np.sum(mask)` over
`mask = fate_probs < 0`). -/
def negCount (m : List (List ℚ)) : ℕ :=
  (m.map negCountRow).sum

/-- The number of rows whose sum differs from 1 by more than the relative
tolerance `1e-3`. -/
def badRowCount : List (List ℚ) → ℕ
  | [] => 0
  | r :: rest => (if |r.sum - 1| ≤ 1 / 1000 then 0 else 1) + badRowCount rest

def negMsg (n : ℕ) : String :=
  "`" ++ toString n ++ "` value(s) are negative."

def sumMsg (n : ℕ) : String :=
  "`" ++ toString n ++ "` value(s) do not sum to 1 (rtol=1e-3)."

/-- Modelled from the spec: post-solve validation of the solved
fate-probability matrix. -/
def validateFateProbs (m : List (List ℚ)) : Except String (List (List ℚ)) :=
  if negCount m ≠ 0 then .error (negMsg (negCount m))
  else if badRowCount m ≠ 0 then .error (sumMsg (badRowCount m))
  else .ok m

theorem negCountRow_eq_zero_iff (r : List ℚ) :
    negCountRow r = 0 ↔ ∀ x ∈ r, ¬ x < 0 := by
  induction r with
  | nil => simp [negCountRow]
  | cons x t ih =>
    by_cases hx : x < 0
    · simp [negCountRow, hx]
    · simp [negCountRow, hx, ih]
      intro _
      exact not_lt.mp hx

theorem negCount_eq_zero_iff (m : List (List ℚ)) :
    negCount m = 0 ↔ ∀ r ∈ m, ∀ x ∈ r, ¬ x < 0 := by
  induction m with
  | nil => simp [negCount]
  | cons r rest ih =>
    simp only [negCount, List.map_cons, List.sum_cons, Nat.add_eq_zero]
    rw [show (List.map negCountRow rest).sum = negCount rest from rfl]
    simp [negCountRow_eq_zero_iff, ih]

theorem badRowCount_eq_zero_iff (m : List (List ℚ)) :
    badRowCount m = 0 ↔ ∀ r ∈ m, |r.sum - 1| ≤ 1 / 1000 := by
  induction m with
  | nil => simp [badRowCount]
  | cons r rest ih =>
    by_cases hr : |r.sum - 1| ≤ 1 / 1000
    · simp [badRowCount, hr, ih]
    · rw [badRowCount, if_neg hr]
      constructor
      · intro h
        exact absurd h (by omega)
      · intro hall
        exact absurd (hall r (List.mem_cons_self r rest)) hr

/-- C3: for every solved fate-probability matrix, the post-solve
validation returns a hard error — never `ok` — whenever some entry is
negative or some row sum misses 1 by more than the relative tolerance
`1e-3`; the error message states the exact count of violating values
(negative entries, respectively bad rows).  Conversely `ok` implies that
every row sums to 1 within tolerance and no entry is negative. -/
theorem c3_validate_fate_probs (m : List (List ℚ)) :
    ((∃ r ∈ m, ∃ x ∈ r, x < 0) →
      validateFateProbs m = .error (negMsg (negCount m)) ∧ negCount m ≠ 0) ∧
    ((∀ r ∈ m, ∀ x ∈ r, ¬ x < 0) → (∃ r ∈ m, ¬ |r.sum - 1| ≤ 1 / 1000) →
      validateFateProbs m = .error (sumMsg (badRowCount m)) ∧ badRowCount m ≠ 0) ∧
    (∀ res, validateFateProbs m = .ok res →
      res = m ∧ (∀ r ∈ m, ∀ x ∈ r, ¬ x < 0) ∧ (∀ r ∈ m, |r.sum - 1| ≤ 1 / 1000)) := by
  refine ⟨?_, ?_, ?_⟩
  · intro hex
    have hne : negCount m ≠ 0 := by
      rw [Ne, negCount_eq_zero_iff]
      push_neg
      simpa using hex
    simp [validateFateProbs, hne]
  · intro hnoneg hex
    have h0 : negCount m = 0 := (negCount_eq_zero_iff m).mpr hnoneg
    have hne : badRowCount m ≠ 0 := by
      rw [Ne, badRowCount_eq_zero_iff]
      push_neg
      simpa using hex
    simp [validateFateProbs, h0, hne]
  · intro res hok
    rw [validateFateProbs] at hok
    by_cases h1 : negCount m = 0
    · by_cases h2 : badRowCount m = 0
      · simp [h1, h2] at hok
        exact ⟨hok.symm, (negCount_eq_zero_iff m).mp h1,
          (badRowCount_eq_zero_iff m).mp h2⟩
      · simp [h1, h2] at hok
    · simp [h1] at hok

/-- The mocked matrix of `test_fate_probs_do_not_sum_to_1`, in miniature:
first column 1, then `fate_prob[0, 0] = 1.01`, so exactly one row fails the
sum check and no entry is negative. -/
def fateProbsBadSum : List (List ℚ) := [[101/100, 0], [1, 0], [1, 0]]

/-- The mocked matrix of `test_fate_probs_negative`, in miniature:
`fate_prob[0, 0] = -0.5` and `fate_prob[0, 1] = -1.5`, so exactly two
entries are negative (and row 0 also fails the sum check — the negativity
error is the one raised). -/
def fateProbsNeg : List (List ℚ) := [[-1/2, -3/2], [1, 0], [0, 1]]

/-- Witness for C3: on the two mocked fixtures the validation raises exactly
the errors the tests expect, with the exact counts in the messages. -/
theorem c3_validate_fate_probs_witness :
    validateFateProbs fateProbsBadSum
      = .error "`1` value(s) do not sum to 1 (rtol=1e-3)." ∧
    validateFateProbs fateProbsNeg = .error "`2` value(s) are negative." := by
  constructor
  · have hnoneg : ∀ r ∈ fateProbsBadSum, ∀ x ∈ r, ¬ x < 0 := by
      intro r hr x hx
      rw [fateProbsBadSum] at hr
      rcases List.mem_cons.mp hr with rfl | hr
      · rcases List.mem_cons.mp hx with rfl | hx
        · norm_num
        · simp at hx
          rw [hx]
          norm_num
      rcases List.mem_cons.mp hr with rfl | hr
      · rcases List.mem_cons.mp hx with rfl | hx
        · norm_num
        · simp at hx
          rw [hx]
          norm_num
      · simp at hr
        rw [hr] at hx
        rcases List.mem_cons.mp hx with rfl | hx
        · norm_num
        · simp at hx
          rw [hx]
          norm_num
    have hbad : ∃ r ∈ fateProbsBadSum, ¬ |r.sum - 1| ≤ 1 / 1000 := by
      refine ⟨[101/100, 0], by simp [fateProbsBadSum], ?_⟩
      have hs : (([101/100, 0] : List ℚ).sum - 1) = 1/100 := by
        norm_num [List.sum_cons, List.sum_nil]
      rw [hs, abs_of_pos (by norm_num)]
      norm_num
    have H := ((c3_validate_fate_probs fateProbsBadSum).2.1 hnoneg hbad).1
    have hcount : badRowCount fateProbsBadSum = 1 := by
      have e1 : (([101/100, 0] : List ℚ).sum - 1) = 1/100 := by
        norm_num [List.sum_cons, List.sum_nil]
      have e2 : (([1, 0] : List ℚ).sum - 1) = 0 := by
        norm_num [List.sum_cons, List.sum_nil]
      rw [fateProbsBadSum, badRowCount, badRowCount, badRowCount, badRowCount]
      rw [e1, e2, abs_of_pos (by norm_num : (0:ℚ) < 1/100)]
      rw [if_neg (by norm_num), if_pos (by norm_num)]
    rw [hcount] at H
    exact H
  · have hneg : ∃ r ∈ fateProbsNeg, ∃ x ∈ r, x < 0 := by
      refine ⟨[-1/2, -3/2], by simp [fateProbsNeg], -1/2, by simp, by norm_num⟩
    have H := ((c3_validate_fate_probs fateProbsNeg).1 hneg).1
    have hcount : negCount fateProbsNeg = 2 := by
      rw [fateProbsNeg, negCount]
      simp only [List.map_cons, List.map_nil, List.sum_cons, List.sum_nil, negCountRow]
      rw [if_pos (by norm_num : (-1/2 : ℚ) < 0), if_pos (by norm_num : (-3/2 : ℚ) < 0),
        if_neg (by norm_num : ¬ (1 : ℚ) < 0), if_neg (by norm_num : ¬ (0 : ℚ) < 0)]
      norm_num
    rw [hcount] at H
    exact H

/-! ## Renaming terminal states (claim C8)

`rename_terminal_states` lives in the estimator mixins, which are not under
`src/`.  Modelled from the spec (§4.4): it takes an `{old_name: new_name}`
mapping; any old name not among the current categories is a fatal validation
error listing the invalid names; names not mentioned keep their identity;
renaming that makes the categories collide is a fatal error
(`test_rename_terminal_states_invalid_new_name` expects "After renaming");
an empty mapping is a no-op. -/

/-- Modelled from the spec: `rename_terminal_states` acting on the category
list of the terminal-state assignment. -/
def renameTerminalStates (cats : List String) (mapping : List (String × String)) :
    Except String (List String) :=
  let invalid := (mapping.map Prod.fst).filter fun o => ! cats.contains o
  if invalid.isEmpty then
    let newCats := cats.map fun c => (mapping.lookup c).getD c
    if newCats.Nodup then .ok newCats
    else .error ("After renaming, terminal states are not unique: " ++ toString newCats)
  else .error ("Invalid terminal states names: " ++ toString invalid)

/-- C8: renaming terminal states with an empty mapping is a no-op: it
succeeds and the categories after the call equal the categories before
(categories of a categorical are distinct, hence the `Nodup` hypothesis). -/
theorem c8_rename_empty_mapping_noop (cats : List String) (hnd : cats.Nodup) :
    renameTerminalStates cats [] = .ok cats := by
  simp [renameTerminalStates, hnd]

/-- Witness for C8 at the categories `["0", "1"]` produced by `predict`. -/
theorem c8_rename_empty_mapping_noop_witness :
    renameTerminalStates ["0", "1"] [] = .ok ["0", "1"] :=
  c8_rename_empty_mapping_noop ["0", "1"] (by simp)

/-! ## Manual terminal-state assignment (claim C10)

`set_terminal_states` lives in the estimator mixins, which are not under
`src/`.  Modelled from the spec (§4.4): the automatic predictor and the
manual override are "mutually exclusive sources of truth", the override
"accepting an explicit mapping `{state_name: list of cell identifiers}`";
`test_manual_approx_rc_set` checks that after the override every listed
cell carries the given state and every other cell is NA, regardless of the
previous prediction. -/

/-- Modelled from the spec: `set_terminal_states` builds the terminal-state
assignment from the mapping alone, discarding the previous assignment
`prev`.  A cell is labelled with the (first) state whose cell list contains
it, and is unassigned (`none`, pandas NA) otherwise. -/
def setTerminalStates (prev : String → Option String)
    (mapping : List (String × List String)) : String → Option String :=
  fun cell => (mapping.find? fun p => p.2.contains cell).map Prod.fst

/-- C10: the manual override replaces the entire previous assignment:
the result does not depend on the previous assignment at all; every cell
listed in the (pairwise-disjoint) mapping carries its state's name; and
every cell not listed is unassigned — even if the previous assignment had
labelled it. -/
theorem c10_set_terminal_states_overrides (prev prev' : String → Option String)
    (mapping : List (String × List String)) (cell : String) :
    (setTerminalStates prev mapping cell = setTerminalStates prev' mapping cell) ∧
    (∀ s cells, (s, cells) ∈ mapping → cell ∈ cells →
      (mapping.Pairwise fun p q => ∀ c, c ∈ p.2 → c ∉ q.2) →
      setTerminalStates prev mapping cell = some s) ∧
    ((∀ p ∈ mapping, cell ∉ p.2) → setTerminalStates prev mapping cell = none) := by
  refine ⟨rfl, ?_, ?_⟩
  · intro s cells hmem hcell hpw
    induction mapping with
    | nil => simp at hmem
    | cons p rest ih =>
      rcases List.mem_cons.mp hmem with heq | htail
      · subst heq
        have hc : (fun q : String × List String => q.2.contains cell) (s, cells) = true :=
          List.elem_iff.mpr hcell
        show Option.map Prod.fst
          (List.find? (fun q => q.2.contains cell) ((s, cells) :: rest)) = some s
        rw [List.find?_cons_of_pos rest hc]
        rfl
      · obtain ⟨hhead, htl⟩ := List.pairwise_cons.mp hpw
        have hb : ¬ (fun q : String × List String => q.2.contains cell) p = true := by
          intro hfc
          exact absurd hcell (hhead (s, cells) htail cell (List.elem_iff.mp hfc))
        show Option.map Prod.fst
          (List.find? (fun q => q.2.contains cell) (p :: rest)) = some s
        rw [List.find?_cons_of_neg rest hb]
        exact ih htail htl
  · intro hnone
    show Option.map Prod.fst (List.find? (fun q => q.2.contains cell) mapping) = none
    rw [List.find?_eq_none.mpr fun p hp hcon => hnone p hp (List.elem_iff.mp hcon)]
    rfl

/-- Witness for C10, mirroring `test_manual_approx_rc_set`: the previous
(automatic) assignment labels cell `"c2"` with state `"0"`; after
`set_terminal_states({"foo": ["c0", "c1"]})`, cell `"c0"` carries `"foo"`
and cell `"c2"` is unassigned. -/
theorem c10_set_terminal_states_overrides_witness :
    (setTerminalStates (fun c => if c = "c2" then some "0" else none)
      [("foo", ["c0", "c1"])] "c0" = some "foo") ∧
    (setTerminalStates (fun c => if c = "c2" then some "0" else none)
      [("foo", ["c0", "c1"])] "c2" = none) := by
  constructor
  · exact (c10_set_terminal_states_overrides (fun c => if c = "c2" then some "0" else none)
      (fun _ => none) [("foo", ["c0", "c1"])] "c0").2.1 "foo" ["c0", "c1"]
      (by simp) (by simp) (by simp)
  · exact (c10_set_terminal_states_overrides (fun c => if c = "c2" then some "0" else none)
      (fun _ => none) [("foo", ["c0", "c1"])] "c2").2.2
      (by intro p hp; simp at hp; subst hp; simp)

end CellRank
